import Mathlib

/-!
Verification of the s2n-quic perf-reproducer client core: the cancellable
bulk-transfer pumps (`src/common.rs`), the request orchestrator and its
configuration handling (`src/client.rs`), and the recovery-metrics CSV sink
(`src/recovery_metrics_logger.rs`), shallowly embedded as executable Lean
functions.
-/

namespace PerfClient

/-- Largest value representable in a `u64`. -/
def U64_MAX : Nat := 2 ^ 64 - 1

/-- One batch of synthetic payload chunks produced by the external test-data
generator (`s2n_quic_core::stream::testing::Data::send` with `amount =
usize::MAX`): it fills at most `maxChunks` chunks, each of at most `chunkLen`
bytes, drawn front-first from the `remaining` unsent bytes.  The result is the
list of chunk lengths (chunk contents are synthetic and not semantically
significant). -/
def dataSendChunks (chunkLen : Nat) : Nat → Nat → List Nat
  | 0, _ => []
  | m + 1, remaining =>
    if remaining = 0 then []
    else min chunkLen remaining :: dataSendChunks chunkLen m (remaining - min chunkLen remaining)

/-- Observable actions `send_bytes_on_channel` performs on the send side of a
stream: transmitting one vectored chunk batch, or signalling end-of-stream
(`SendStream::finish`). -/
inductive SendEvent
  | batch (chunks : List Nat)
  | finish
deriving DecidableEq

/-- The loop body of `send_bytes_on_channel` (src/common.rs lines 15-29):
at check index `i` it first reads the cancellation flag (`cancel i` is the
value `*should_quit_receiver.borrow()` returns at that check); if set it breaks
with the bytes queued so far; otherwise `Data::send` either yields a batch of
at most 64 chunks (which is transmitted by `send_vectored`) or reports all
bytes sent, in which case `finish` is signalled and the loop breaks.  `fuel`
bounds the recursion; `none` means the fuel ran out.  The result pairs
`data.offset()` (bytes queued) with the trace of send-side events. -/
def sendLoopAux (chunkLen : Nat) (cancel : Nat → Bool) (total : Nat) :
    Nat → Nat → Nat → Option (Nat × List SendEvent)
  | 0, _, _ => none
  | fuel + 1, i, offset =>
    if cancel i then some (offset, [])
    else if offset = total then some (offset, [SendEvent.finish])
    else
      match sendLoopAux chunkLen cancel total fuel (i + 1)
          (offset + (dataSendChunks chunkLen 64 (total - offset)).sum) with
      | none => none
      | some (res, t) =>
        some (res, SendEvent.batch (dataSendChunks chunkLen 64 (total - offset)) :: t)

/-- `send_bytes_on_channel` (src/common.rs lines 7-32) on an error-free
transport: pumps `total` bytes of generated payload in bounded chunk batches,
checking the cancellation flag before each batch.  Fuel `total + 1` is enough
for every run since every batch moves at least one byte. -/
def send_bytes_on_channel (chunkLen : Nat) (cancel : Nat → Bool) (total : Nat) :
    Option (Nat × List SendEvent) :=
  sendLoopAux chunkLen cancel total (total + 1) 0 0

/-- A monotone cancellation flag that transitions false→true at check index
`k`: the value seen by the `k`-th and all later flag reads is `true`. -/
def cancelAt (k : Nat) : Nat → Bool := fun i => decide (k ≤ i)

/-- Number of chunk-batch transmissions in a send-side event trace. -/
def batchCount (t : List SendEvent) : Nat :=
  (t.filter fun e => match e with | SendEvent.batch _ => true | SendEvent.finish => false).length

/-- `read_all_from_channel` (src/common.rs lines 34-60) on an error-free
transport.  The inbound stream is modelled by the sequence of results its
successive `receive_vectored` calls would resolve to: each entry is the list of
received chunk lengths together with the `is_open` flag.  At check index `i`
the loop first reads the cancellation flag and breaks with the byte count
accumulated so far if it is set; otherwise it awaits the next read, adds the
lengths of the returned chunks, and breaks when the stream reports it is no
longer open.  `none` models a receive that never resolves (the peer neither
sends nor closes while the flag stays clear). -/
def read_all_from_channel (cancel : Nat → Bool) :
    Nat → Nat → List (List Nat × Bool) → Option Nat
  | i, acc, [] => if cancel i then some acc else none
  | i, acc, (chunks, isOpen) :: rest =>
    if cancel i then some acc
    else if isOpen then read_all_from_channel cancel (i + 1) (acc + chunks.sum) rest
    else some (acc + chunks.sum)

/-- Big-endian byte decomposition of a `u64`, as produced by
`u64::to_be_bytes` (src/client.rs line 139). -/
def u64ToBeBytes (n : Nat) : List Nat :=
  [n / 2 ^ 56 % 256, n / 2 ^ 48 % 256, n / 2 ^ 40 % 256, n / 2 ^ 32 % 256,
   n / 2 ^ 24 % 256, n / 2 ^ 16 % 256, n / 2 ^ 8 % 256, n % 256]

/-- Big-endian interpretation of a byte list (how the peer reads the header
back into a length). -/
def beBytesToNat (bs : List Nat) : Nat :=
  bs.foldl (fun acc b => acc * 256 + b) 0

/-- The byte sequence the orchestrator writes onto one newly opened stream
(src/client.rs lines 137-142): first the 8-byte big-endian response-size
header, then the generated payload bytes handed to `send_bytes_on_channel`. -/
def iterationStreamBytes (requested : Nat) (payload : List Nat) : List Nat :=
  u64ToBeBytes requested ++ payload

/-- Modelled from the spec: the rendering of the maximum representable size by
the external byte-size formatter (`ByteSize(u64::MAX)` in src/client.rs line
52); its exact text is owned by the out-of-scope `bytesize` crate. -/
def byteSizeU64MaxDisplay : String := "16.0 EiB"

/-- Response-size acceptance (src/client.rs lines 47-63).  The argument is the
result of the out-of-scope size-string parse, already converted to its `u64`
value; the function reproduces the bound check and the error messages the
source builds around it. -/
def parseResponseSize (p : Except String Nat) : Except String Nat :=
  match p with
  | Except.ok parsed =>
    if U64_MAX < parsed then
      Except.error ("Can't request responses greater than than " ++ byteSizeU64MaxDisplay)
    else Except.ok parsed
  | Except.error e => Except.error ("Failed to parse response size, error: " ++ e)

/-- Request-size acceptance (src/client.rs lines 64-77): sizes below the
8-byte protocol header are rejected; an accepted size `s` yields `s - 8`
payload bytes to send. -/
def parseRequestSize (p : Except String Nat) : Except String Nat :=
  match p with
  | Except.ok parsed =>
    if parsed < 8 then
      Except.error
        "Can't send less than 8 bytes application data per request due to protocol header size!"
    else Except.ok (parsed - 8)
  | Except.error e => Except.error ("Failed to parse request size, error: " ++ e)

/-- The inputs one iteration of the request loop (src/client.rs lines 128-181)
draws from its environment: the cancellation-flag values read at the
stream-open boundary (line 131 or the `changed()` select arm at lines
174-178), after the send leg (line 153), and at response validation (line
169), plus the byte count the receive leg returned. -/
structure IterEnv where
  quitAtOpen : Bool
  quitAfterSend : Bool
  quitAtValidate : Bool
  received : Nat
deriving DecidableEq

/-- How the request loop terminates: cooperative cancellation (not an error)
or a response-size mismatch (logged as an error). -/
inductive LoopExit
  | cancelled
  | mismatch
deriving DecidableEq

/-- One iteration of the request loop.  `some (exit, logged)` means the loop
breaks, with `logged` recording whether a mismatch error was logged in that
iteration; `none` means the iteration fell through to the next one.  Mirrors
the control flow of src/client.rs lines 128-181: break on the flag at the open
boundary, break on the flag after the send leg, and log-and-break only when
the received count differs from the requested amount while the flag is still
clear. -/
def runIter (requested : Nat) (env : IterEnv) : Option (LoopExit × Bool) :=
  if env.quitAtOpen then some (LoopExit.cancelled, false)
  else if env.quitAfterSend then some (LoopExit.cancelled, false)
  else if env.received ≠ requested ∧ env.quitAtValidate = false then
    some (LoopExit.mismatch, true)
  else none

/-- The request loop over a finite script of iteration environments: the first
iteration that breaks determines the outcome; `none` means the script ran out
with the loop still going. -/
def runLoop (requested : Nat) : List IterEnv → Option (LoopExit × Bool)
  | [] => none
  | e :: rest =>
    match runIter requested e with
    | some ex => some ex
    | none => runLoop requested rest

/-- The `main` skeleton of src/client.rs on the path the claims concern:
response-size acceptance first (lines 47-63), then request-size acceptance
(lines 64-77), and only then — with both accepted — the request loop, whose
outcome is returned inside `Except.ok` because `main` falls through to
`Ok(())` (line 189) however the loop ends. -/
def clientMain (responseParse requestParse : Except String Nat)
    (envs : List IterEnv) : Except String (Option (LoopExit × Bool)) :=
  match parseResponseSize responseParse with
  | Except.error e => Except.error e
  | Except.ok amountToRequest =>
    match parseRequestSize requestParse with
    | Except.error e => Except.error e
    | Except.ok _ => Except.ok (runLoop amountToRequest envs)

/-- Process exit status from the value `main` returns: a Rust `main` returning
`Err` exits non-zero, `Ok` exits zero. -/
def exitStatus {α : Type} : Except String α → Nat
  | Except.error _ => 1
  | Except.ok _ => 0

/-- One recovery-metrics event as the sink consumes it
(src/recovery_metrics_logger.rs lines 47-69): the wall-clock timestamp taken
at the event, the connection id from the event metadata, the five RTT/delay
durations in nanoseconds, and the three counters. -/
structure RecoverySample where
  timestamp : Nat
  connId : Nat
  minRtt : Nat
  smoothedRtt : Nat
  latestRtt : Nat
  rttVariance : Nat
  maxAckDelay : Nat
  ptoCount : Nat
  congestionWindow : Nat
  bytesInFlight : Nat
deriving DecidableEq

/-- The fixed CSV header columns (src/recovery_metrics_logger.rs lines
17-28). -/
def headerFields : List String :=
  ["time", "conn_id", "min_rtt", "smoothed_rtt", "latest_rtt", "rtt_variance",
   "max_ack_delay", "pto_count", "congestion_window", "bytes_in_flight"]

/-- The data-row fields written for one event, in the order of the `writeln!`
arguments (src/recovery_metrics_logger.rs lines 56-69), which is the header's
column order. -/
def sampleFields (s : RecoverySample) : List String :=
  [toString s.timestamp, toString s.connId, toString s.minRtt, toString s.smoothedRtt,
   toString s.latestRtt, toString s.rttVariance, toString s.maxAckDelay,
   toString s.ptoCount, toString s.congestionWindow, toString s.bytesInFlight]

/-- The metrics sink's owned writer, modelled as the list of lines written so
far. -/
structure RecoveryMetricsLogger where
  lines : List String
deriving DecidableEq

/-- `RecoveryMetricsLogger::new` (src/recovery_metrics_logger.rs lines 16-33):
takes ownership of the writer and immediately writes the comma-joined header
row. -/
def RecoveryMetricsLogger.new : RecoveryMetricsLogger :=
  ⟨[String.intercalate "," headerFields]⟩

/-- `on_recovery_metrics` (src/recovery_metrics_logger.rs lines 47-71):
appends one comma-joined data row per event. -/
def RecoveryMetricsLogger.onRecoveryMetrics (l : RecoveryMetricsLogger)
    (s : RecoverySample) : RecoveryMetricsLogger :=
  ⟨l.lines ++ [String.intercalate "," (sampleFields s)]⟩

/-- The sink's whole life against a sequence of events: construct, then handle
each event in order. -/
def runLogger (events : List RecoverySample) : RecoveryMetricsLogger :=
  events.foldl RecoveryMetricsLogger.onRecoveryMetrics RecoveryMetricsLogger.new

/-- How a suspension point observes the cancellation flag in the source:
raced against `watch::Receiver::changed()` inside a `tokio::select!`; guarded
by a synchronous `borrow()` check at the top of every pump-loop iteration; or
merely bracketed by the orchestrator's per-iteration `borrow()` checks. -/
inductive CancelMechanism
  | race
  | pollBeforeEachBatch
  | checkedWithinIteration
deriving DecidableEq

/-- An `await` point of the Request Orchestrator, Bulk Sender, or Bulk
Receiver, with the cancellation mechanism the source actually applies to
it. -/
structure SuspensionPoint where
  name : String
  component : String
  mechanism : CancelMechanism
deriving DecidableEq

/-- Every suspension point of the core, read off the source: `client.connect`
is one `tokio::select!` arm against `changed()` (src/client.rs lines 125-187),
as is `open_bidirectional_stream` (lines 129-180); the header send (line 139)
and `send.close()` (line 146) are plain awaits bracketed by the iteration's
`borrow()` checks; `send_vectored` (src/common.rs line 22) and
`receive_vectored` (src/common.rs line 47) are plain awaits whose loops poll
`borrow()` before every batch. -/
def suspensionPoints : List SuspensionPoint :=
  [⟨"client.connect", "orchestrator", CancelMechanism.race⟩,
   ⟨"open_bidirectional_stream", "orchestrator", CancelMechanism.race⟩,
   ⟨"send_header", "orchestrator", CancelMechanism.checkedWithinIteration⟩,
   ⟨"send_vectored", "bulk_sender", CancelMechanism.pollBeforeEachBatch⟩,
   ⟨"send_close", "orchestrator", CancelMechanism.checkedWithinIteration⟩,
   ⟨"receive_vectored", "bulk_receiver", CancelMechanism.pollBeforeEachBatch⟩]

theorem dataSendChunks_sum (chunkLen : Nat) :
    ∀ m r, (dataSendChunks chunkLen m r).sum = min r (m * chunkLen) := by
  intro m
  induction m with
  | zero => intro r; simp [dataSendChunks]
  | succ m ih =>
    intro r
    by_cases hr : r = 0
    · subst hr; simp [dataSendChunks]
    · simp only [dataSendChunks, hr, if_false, List.sum_cons, ih]
      have hmul : (m + 1) * chunkLen = m * chunkLen + chunkLen := by ring
      omega

theorem dataSendChunks_length (chunkLen : Nat) :
    ∀ m r, (dataSendChunks chunkLen m r).length ≤ m := by
  intro m
  induction m with
  | zero => intro r; simp [dataSendChunks]
  | succ m ih =>
    intro r
    by_cases hr : r = 0
    · subst hr; simp [dataSendChunks]
    · simp only [dataSendChunks, hr, if_false, List.length_cons]
      exact Nat.succ_le_succ (ih _)

/-- With the cancellation flag never set, the send loop started at `offset`
bytes already queued completes: it returns exactly `total` queued bytes, its
trace is a run of chunk batches followed by a single terminal `finish`, the
batches carry exactly the missing `total - offset` bytes in at most 64 chunks
each, and at least one batch occurs when bytes remain. -/
theorem sendLoop_complete (chunkLen : Nat) (hc : 0 < chunkLen) (total : Nat) :
    ∀ fuel i offset, offset ≤ total → total - offset < fuel →
    ∃ bs : List (List Nat),
      sendLoopAux chunkLen (fun _ => false) total fuel i offset
          = some (total, bs.map SendEvent.batch ++ [SendEvent.finish]) ∧
        (bs.map List.sum).sum = total - offset ∧
        (∀ b ∈ bs, b.length ≤ 64) ∧
        (offset < total → bs ≠ []) := by
  intro fuel
  induction fuel with
  | zero => intro i offset h1 h2; omega
  | succ fuel ih =>
    intro i offset h1 h2
    by_cases heq : offset = total
    · subst heq
      refine ⟨[], ?_, by simp, by simp, by simp⟩
      simp [sendLoopAux]
    · have hlt : offset < total := Nat.lt_of_le_of_ne h1 heq
      have hsum := dataSendChunks_sum chunkLen 64 (total - offset)
      obtain ⟨bs, hrec, hsums, hlen, _⟩ :=
        ih (i + 1) (offset + (dataSendChunks chunkLen 64 (total - offset)).sum)
          (by rw [hsum]; omega) (by rw [hsum]; omega)
      refine ⟨dataSendChunks chunkLen 64 (total - offset) :: bs, ?_, ?_, ?_, by simp⟩
      · simp only [sendLoopAux, Bool.false_eq_true, if_false, heq, hrec,
          List.map_cons, List.cons_append]
      · simp only [List.map_cons, List.sum_cons, hsums, hsum]
        omega
      · intro b hb
        rcases List.mem_cons.mp hb with hb | hb
        · subst hb; exact dataSendChunks_length chunkLen 64 _
        · exact hlen b hb

/-- With the cancellation flag transitioning at check index `k`, and `k` no
larger than the number of batches an uncancelled run needs (every check before
`k` still has bytes outstanding), the send loop performs exactly the `k - i`
remaining complete batches and then stops at the flagged check: it returns
`min total (k * (64 * chunkLen))` queued bytes, and its trace holds those
batches only — in particular no `finish` is ever signalled. -/
theorem sendLoop_cancelled (chunkLen : Nat) (hc : 0 < chunkLen) (total k : Nat)
    (hk : ∀ j, j < k → j * (64 * chunkLen) < total) :
    ∀ fuel i offset, i ≤ k → offset = min total (i * (64 * chunkLen)) → k - i < fuel →
    ∃ bs : List (List Nat),
      sendLoopAux chunkLen (cancelAt k) total fuel i offset
          = some (min total (k * (64 * chunkLen)), bs.map SendEvent.batch) ∧
        bs.length = k - i ∧
        (bs.map List.sum).sum = min total (k * (64 * chunkLen)) - offset := by
  intro fuel
  induction fuel with
  | zero => intro i offset h1 h2 h3; omega
  | succ fuel ih =>
    intro i offset hik hoff hfuel
    by_cases hki : k ≤ i
    · have hik' : i = k := Nat.le_antisymm hik hki
      subst hik'
      have hcan : cancelAt i i = true := by simp [cancelAt]
      refine ⟨[], ?_, by simp, by simp [hoff]⟩
      simp [sendLoopAux, hcan, hoff]
    · have hiklt : i < k := Nat.lt_of_not_le hki
      have hcan : cancelAt k i = false := by simp [cancelAt]; omega
      have hbound : i * (64 * chunkLen) < total := hk i hiklt
      have hoff' : offset = i * (64 * chunkLen) := by omega
      have hne : offset ≠ total := by omega
      have hsum := dataSendChunks_sum chunkLen 64 (total - offset)
      have hmul1 : (i + 1) * (64 * chunkLen) = i * (64 * chunkLen) + 64 * chunkLen := by ring
      have hmul2 : (i + 1) * (64 * chunkLen) ≤ k * (64 * chunkLen) :=
        Nat.mul_le_mul_right _ hiklt
      obtain ⟨bs, hrec, hblen, hbsum⟩ :=
        ih (i + 1) (offset + (dataSendChunks chunkLen 64 (total - offset)).sum)
          hiklt (by rw [hsum]; omega) (by omega)
      refine ⟨dataSendChunks chunkLen 64 (total - offset) :: bs, ?_, ?_, ?_⟩
      · simp only [sendLoopAux, hcan, Bool.false_eq_true, if_false, hne, hrec, List.map_cons]
      · simp only [List.length_cons, hblen]; omega
      · simp only [List.map_cons, List.sum_cons, hbsum, hsum]
        omega

/-- With the cancellation flag never set and the peer half-closing on its last
read (every earlier read leaves the stream open), the receive loop returns the
accumulator plus every chunk byte the peer sent, the final read's chunks
included. -/
theorem readAll_complete :
    ∀ (pre : List (List Nat × Bool)) (lastChunks : List Nat) (i acc : Nat),
      (∀ p ∈ pre, p.2 = true) →
      read_all_from_channel (fun _ => false) i acc (pre ++ [(lastChunks, false)])
        = some (acc + ((pre ++ [(lastChunks, false)]).map (fun r => r.1.sum)).sum) := by
  intro pre
  induction pre with
  | nil => intro lastChunks i acc _; simp [read_all_from_channel]
  | cons p rest ih =>
    intro lastChunks i acc hpre
    obtain ⟨chunks, isOpen⟩ := p
    have hopen : isOpen = true := hpre (chunks, isOpen) (List.mem_cons_self _ _)
    subst hopen
    have hrest : ∀ p ∈ rest, p.2 = true := fun p hp => hpre p (List.mem_cons_of_mem _ hp)
    have hrec := ih lastChunks (i + 1) (acc + chunks.sum) hrest
    simp only [List.cons_append, read_all_from_channel, Bool.false_eq_true, if_false]
    simp [hrec, Nat.add_assoc]

/-- With the cancellation flag transitioning at check index `i + j`, and the
first `j` pending reads all leaving the stream open, the receive loop started
at check index `i` consumes exactly those `j` reads and then stops at the
flagged check, returning the accumulator plus their chunk bytes. -/
theorem readAll_cancelled :
    ∀ (j i acc : Nat) (reads : List (List Nat × Bool)), j ≤ reads.length →
      (∀ r ∈ reads.take j, r.2 = true) →
      read_all_from_channel (cancelAt (i + j)) i acc reads
        = some (acc + ((reads.take j).map (fun r => r.1.sum)).sum) := by
  intro j
  induction j with
  | zero =>
    intro i acc reads _ _
    have hcan : cancelAt i i = true := by simp [cancelAt]
    cases reads with
    | nil => simp [read_all_from_channel, hcan]
    | cons r rest =>
      obtain ⟨chunks, isOpen⟩ := r
      simp [read_all_from_channel, hcan]
  | succ j ih =>
    intro i acc reads hlen hopen
    cases reads with
    | nil => simp at hlen
    | cons r rest =>
      obtain ⟨chunks, isOpen⟩ := r
      have hopen1 : isOpen = true := by
        apply hopen (chunks, isOpen)
        rw [List.take_succ_cons]
        exact List.mem_cons_self _ _
      subst hopen1
      have hlen' : j ≤ rest.length := by
        simp only [List.length_cons] at hlen
        omega
      have hrest : ∀ r ∈ rest.take j, r.2 = true := by
        intro r hr
        apply hopen r
        rw [List.take_succ_cons]
        exact List.mem_cons_of_mem _ hr
      have hcan : cancelAt (i + (j + 1)) i = false := by
        simp only [cancelAt, decide_eq_false_iff_not]
        omega
      have hidx : i + (j + 1) = (i + 1) + j := by omega
      have hrec := ih (i + 1) (acc + chunks.sum) rest hlen' hrest
      rw [hidx] at hcan ⊢
      simp only [read_all_from_channel, hcan, Bool.false_eq_true, if_false,
        List.take_succ_cons, List.map_cons, List.sum_cons]
      rw [hrec]
      simp [List.map_take, Nat.add_assoc]

/-- If every flag check before index `k` still has bytes outstanding, there can
be at most `total` such checks: each earlier batch moved at least one byte. -/
theorem cancel_checks_le_total (chunkLen total k : Nat) (hc : 0 < chunkLen)
    (hk : ∀ j, j < k → j * (64 * chunkLen) < total) : k ≤ total := by
  rcases Nat.eq_zero_or_pos k with hk0 | hk0
  · omega
  · have h1 := hk (k - 1) (by omega)
    have h2 : (k - 1) * 1 ≤ (k - 1) * (64 * chunkLen) :=
      Nat.mul_le_mul_left _ (by omega)
    omega

/-- A full cancelled run of `send_bytes_on_channel`: flag transitioning at
check `k`, with every earlier check still having bytes outstanding, yields the
`k` complete batches and nothing else — no end-of-stream signal. -/
theorem send_cancelled_run (chunkLen total k : Nat) (hc : 0 < chunkLen)
    (hk : ∀ j, j < k → j * (64 * chunkLen) < total) :
    ∃ bs : List (List Nat),
      send_bytes_on_channel chunkLen (cancelAt k) total
          = some (min total (k * (64 * chunkLen)), bs.map SendEvent.batch) ∧
        bs.length = k ∧
        (bs.map List.sum).sum = min total (k * (64 * chunkLen)) := by
  have hfuel : k - 0 < total + 1 := by
    have := cancel_checks_le_total chunkLen total k hc hk
    omega
  obtain ⟨bs, h1, h2, h3⟩ :=
    sendLoop_cancelled chunkLen hc total k hk (total + 1) 0 0 (Nat.zero_le _) (by simp) hfuel
  exact ⟨bs, h1, by simpa using h2, by simpa using h3⟩

/-- C1 (amended): for every totalBytes ≥ 0 and every positive generator chunk
size, `send_bytes_on_channel` with the cancellation flag never set returns Ok
with exactly totalBytes as the bytes-sent count; its send-side trace is zero
or more chunk batches of at most 64 chunks each — at least one batch whenever
totalBytes ≥ 1 — whose sizes sum to totalBytes, followed by a single terminal
end-of-stream signal, exactly after the last byte. -/
theorem sender_chunking_completeness (chunkLen total : Nat) (hc : 0 < chunkLen) :
    ∃ bs : List (List Nat),
      send_bytes_on_channel chunkLen (fun _ => false) total
          = some (total, bs.map SendEvent.batch ++ [SendEvent.finish]) ∧
        (bs.map List.sum).sum = total ∧
        (∀ b ∈ bs, b.length ≤ 64) ∧
        (0 < total → bs ≠ []) := by
  obtain ⟨bs, h1, h2, h3, h4⟩ :=
    sendLoop_complete chunkLen hc total (total + 1) 0 0 (Nat.zero_le _) (by omega)
  exact ⟨bs, h1, by simpa using h2, h3, h4⟩

/-- C1 counterexample: at totalBytes = 0 the uncancelled run transmits no
chunk batch at all — `Data::new(0)` is finished immediately, so the loop
signals end-of-stream on its first pass — refuting "one or more chunk batches"
at this input. -/
theorem sender_zero_total_zero_batches :
    send_bytes_on_channel 1 (fun _ => false) 0 = some (0, [SendEvent.finish]) ∧
    batchCount [SendEvent.finish] = 0 :=
  ⟨rfl, rfl⟩

/-- C1 witness: the amended statement at chunk size 1 and totalBytes = 3. -/
theorem sender_chunking_completeness_witness :
    0 < 1 ∧
    ∃ bs : List (List Nat),
      send_bytes_on_channel 1 (fun _ => false) 3
          = some (3, bs.map SendEvent.batch ++ [SendEvent.finish]) ∧
        (bs.map List.sum).sum = 3 ∧
        (∀ b ∈ bs, b.length ≤ 64) ∧
        (0 < 3 → bs ≠ []) :=
  ⟨Nat.one_pos, sender_chunking_completeness 1 3 Nat.one_pos⟩

/-- C2: for every sequence of peer-sent chunk reads and every stream close
point — the final read carries the half-close, every earlier read leaves the
stream open — `read_all_from_channel` with the cancellation flag never set
returns Ok with exactly the total number of bytes the peer sent before
half-closing, the zero-byte immediate-close case included. -/
theorem receiver_termination (pre : List (List Nat × Bool)) (lastChunks : List Nat)
    (hpre : ∀ p ∈ pre, p.2 = true) :
    read_all_from_channel (fun _ => false) 0 0 (pre ++ [(lastChunks, false)])
      = some (((pre ++ [(lastChunks, false)]).map (fun r => r.1.sum)).sum) := by
  simpa using readAll_complete pre lastChunks 0 0 hpre

/-- C2 witness: the zero-byte immediate close returns Ok 0, and a two-read
stream carrying 2+3 then 4 bytes with the close returns Ok 9. -/
theorem receiver_termination_witness :
    read_all_from_channel (fun _ => false) 0 0 [([], false)] = some 0 ∧
    read_all_from_channel (fun _ => false) 0 0 [([2, 3], true), ([4], false)] = some 9 := by
  constructor
  · simpa using receiver_termination [] [] (by simp)
  · simpa using receiver_termination [([2, 3], true)] [4] (by simp)

/-- C3: if the cancellation flag is set before any chunk batch is issued, both
pumps return Ok with 0 bytes; if it transitions at check `k` while batches are
still outstanding (sender) or while the first `k` reads leave the stream open
(receiver), they return Ok with exactly the bytes of those `k` complete
batches — no partial batch double-counted or dropped — and neither case is an
error. -/
theorem cancellation_promptness :
    (∀ chunkLen total : Nat,
      send_bytes_on_channel chunkLen (cancelAt 0) total = some (0, [])) ∧
    (∀ chunkLen total k : Nat, 0 < chunkLen →
      (∀ j, j < k → j * (64 * chunkLen) < total) →
      ∃ bs : List (List Nat),
        send_bytes_on_channel chunkLen (cancelAt k) total
            = some (min total (k * (64 * chunkLen)), bs.map SendEvent.batch) ∧
          bs.length = k ∧
          (bs.map List.sum).sum = min total (k * (64 * chunkLen))) ∧
    (∀ reads : List (List Nat × Bool),
      read_all_from_channel (cancelAt 0) 0 0 reads = some 0) ∧
    (∀ (k : Nat) (reads : List (List Nat × Bool)), k ≤ reads.length →
      (∀ r ∈ reads.take k, r.2 = true) →
      read_all_from_channel (cancelAt k) 0 0 reads
        = some (((reads.take k).map (fun r => r.1.sum)).sum)) := by
  refine ⟨?_, ?_, ?_, ?_⟩
  · intro chunkLen total
    have hcan : cancelAt 0 0 = true := by simp [cancelAt]
    simp [send_bytes_on_channel, sendLoopAux, hcan]
  · intro chunkLen total k hc hk
    exact send_cancelled_run chunkLen total k hc hk
  · intro reads
    simpa using readAll_cancelled 0 0 0 reads (Nat.zero_le _) (by simp)
  · intro k reads hlen hopen
    simpa using readAll_cancelled k 0 0 reads hlen hopen

/-- C3 witness: flag set before any batch gives Ok 0 on both pumps; flag set
after one sender batch on a 200-byte transfer gives the 64 bytes of that one
complete batch; flag set after one receiver read gives that read's 5 bytes. -/
theorem cancellation_promptness_witness :
    send_bytes_on_channel 1 (cancelAt 0) 5 = some (0, []) ∧
    (∃ bs : List (List Nat),
      send_bytes_on_channel 1 (cancelAt 1) 200
          = some (min 200 (1 * (64 * 1)), bs.map SendEvent.batch) ∧
        bs.length = 1 ∧
        (bs.map List.sum).sum = min 200 (1 * (64 * 1))) ∧
    read_all_from_channel (cancelAt 0) 0 0 [([9], true)] = some 0 ∧
    read_all_from_channel (cancelAt 1) 0 0 [([2, 3], true), ([4], true)] = some 5 := by
  refine ⟨?_, ?_, ?_, ?_⟩
  · exact cancellation_promptness.1 1 5
  · exact cancellation_promptness.2.1 1 200 1 (by decide) (by intro j hj; omega)
  · exact cancellation_promptness.2.2.1 [([9], true)]
  · simpa using cancellation_promptness.2.2.2 1 [([2, 3], true), ([4], true)]
      (by decide) (by decide)

/-- C9: the Bulk Sender signals end-of-stream exactly when all totalBytes have
been queued (uncancelled run: a single terminal finish after the batches), and
leaves the send side open whenever it returns early through a flag check (the
trace of a cancelled run holds chunk batches only, never a finish) — including
the run whose flag transitions only after the final data batch, which returns
all totalBytes yet still does not finish the stream. -/
theorem sender_finish_semantics (chunkLen total k : Nat) (hc : 0 < chunkLen)
    (hk : ∀ j, j < k → j * (64 * chunkLen) < total) :
    (∃ bs : List (List Nat),
      send_bytes_on_channel chunkLen (fun _ => false) total
          = some (total, bs.map SendEvent.batch ++ [SendEvent.finish])) ∧
    (∃ bs : List (List Nat),
      send_bytes_on_channel chunkLen (cancelAt k) total
          = some (min total (k * (64 * chunkLen)), bs.map SendEvent.batch) ∧
        SendEvent.finish ∉ bs.map SendEvent.batch) ∧
    (total ≤ k * (64 * chunkLen) →
      ∃ bs : List (List Nat),
        send_bytes_on_channel chunkLen (cancelAt k) total
            = some (total, bs.map SendEvent.batch) ∧
          SendEvent.finish ∉ bs.map SendEvent.batch) := by
  refine ⟨?_, ?_, ?_⟩
  · obtain ⟨bs, h1, _, _, _⟩ :=
      sendLoop_complete chunkLen hc total (total + 1) 0 0 (Nat.zero_le _) (by omega)
    exact ⟨bs, h1⟩
  · obtain ⟨bs, h1, _, _⟩ := send_cancelled_run chunkLen total k hc hk
    exact ⟨bs, h1, by simp⟩
  · intro hle
    obtain ⟨bs, h1, _, _⟩ := send_cancelled_run chunkLen total k hc hk
    rw [Nat.min_eq_left hle] at h1
    exact ⟨bs, h1, by simp⟩

/-- C9 witness: chunk size 1 and totalBytes = 64, flag transitioning at check
1 — after the single full batch but before the finish pass. -/
theorem sender_finish_semantics_witness :
    (∃ bs : List (List Nat),
      send_bytes_on_channel 1 (fun _ => false) 64
          = some (64, bs.map SendEvent.batch ++ [SendEvent.finish])) ∧
    (∃ bs : List (List Nat),
      send_bytes_on_channel 1 (cancelAt 1) 64
          = some (min 64 (1 * (64 * 1)), bs.map SendEvent.batch) ∧
        SendEvent.finish ∉ bs.map SendEvent.batch) ∧
    (∃ bs : List (List Nat),
      send_bytes_on_channel 1 (cancelAt 1) 64 = some (64, bs.map SendEvent.batch) ∧
        SendEvent.finish ∉ bs.map SendEvent.batch) :=
  ⟨(sender_finish_semantics 1 64 1 Nat.one_pos (by intro j hj; omega)).1,
   (sender_finish_semantics 1 64 1 Nat.one_pos (by intro j hj; omega)).2.1,
   (sender_finish_semantics 1 64 1 Nat.one_pos (by intro j hj; omega)).2.2 (by decide)⟩

/-- C4: for every accepted response size from 8 up to the maximum
representable `u64` value, the first 8 bytes the orchestrator writes onto a
newly opened stream are exactly the big-endian encoding of that size — written
before any payload byte — and decoding them recovers the requested size. -/
theorem header_integrity (n : Nat) (payload : List Nat)
    (h8 : 8 ≤ n) (hmax : n ≤ U64_MAX) :
    parseResponseSize (Except.ok n) = Except.ok n ∧
    (iterationStreamBytes n payload).take 8 = u64ToBeBytes n ∧
    (iterationStreamBytes n payload).drop 8 = payload ∧
    (u64ToBeBytes n).length = 8 ∧
    beBytesToNat (u64ToBeBytes n) = n := by
  refine ⟨?_, ?_, ?_, rfl, ?_⟩
  · have hna : ¬ U64_MAX < n := Nat.not_lt.mpr hmax
    simp [parseResponseSize, hna]
  · simp only [iterationStreamBytes]
    have hlen : (u64ToBeBytes n).length = 8 := rfl
    rw [← hlen, List.take_left]
  · simp only [iterationStreamBytes]
    have hlen : (u64ToBeBytes n).length = 8 := rfl
    rw [← hlen, List.drop_left]
  · have hlt : n < 2 ^ 64 := by
      have h64 : U64_MAX = 2 ^ 64 - 1 := rfl
      omega
    simp only [beBytesToNat, u64ToBeBytes, List.foldl]
    omega

/-- C4 witness: response size 1024 with a one-byte payload behind the
header. -/
theorem header_integrity_witness :
    parseResponseSize (Except.ok 1024) = Except.ok 1024 ∧
    (iterationStreamBytes 1024 [7]).take 8 = u64ToBeBytes 1024 ∧
    (iterationStreamBytes 1024 [7]).drop 8 = [7] ∧
    (u64ToBeBytes 1024).length = 8 ∧
    beBytesToNat (u64ToBeBytes 1024) = 1024 :=
  header_integrity 1024 [7] (by decide) (by decide)

/-- C5: with the flag clear throughout the iteration, a received byte count R
different from the requested amount A makes the orchestrator log a mismatch
error and break the request loop, while `main` still returns Ok so the process
exits with success status; with R = A the iteration falls through to the
next one. -/
theorem mismatch_detection (a r s : Nat) (ha : a ≤ U64_MAX) (hs : 8 ≤ s) :
    (r ≠ a →
      runIter a ⟨false, false, false, r⟩ = some (LoopExit.mismatch, true) ∧
      clientMain (Except.ok a) (Except.ok s) [⟨false, false, false, r⟩]
          = Except.ok (some (LoopExit.mismatch, true)) ∧
      exitStatus (clientMain (Except.ok a) (Except.ok s) [⟨false, false, false, r⟩]) = 0) ∧
    (r = a → runIter a ⟨false, false, false, r⟩ = none) := by
  constructor
  · intro hne
    have hit : runIter a ⟨false, false, false, r⟩ = some (LoopExit.mismatch, true) := by
      simp [runIter, hne]
    have hna : ¬ U64_MAX < a := Nat.not_lt.mpr ha
    have hns : ¬ s < 8 := Nat.not_lt.mpr hs
    have hmain : clientMain (Except.ok a) (Except.ok s) [⟨false, false, false, r⟩]
        = Except.ok (some (LoopExit.mismatch, true)) := by
      simp [clientMain, parseResponseSize, parseRequestSize, hna, hns, runLoop, hit]
    exact ⟨hit, hmain, by simp [hmain, exitStatus]⟩
  · intro heq
    simp [runIter, heq]

/-- C5 witness: requested 10, received 5, request size 8; and the matching
case received 10. -/
theorem mismatch_detection_witness :
    (runIter 10 ⟨false, false, false, 5⟩ = some (LoopExit.mismatch, true) ∧
      clientMain (Except.ok 10) (Except.ok 8) [⟨false, false, false, 5⟩]
          = Except.ok (some (LoopExit.mismatch, true)) ∧
      exitStatus (clientMain (Except.ok 10) (Except.ok 8) [⟨false, false, false, 5⟩]) = 0) ∧
    runIter 10 ⟨false, false, false, 10⟩ = none :=
  ⟨(mismatch_detection 10 5 8 (by decide) (by decide)).1 (by decide),
   (mismatch_detection 10 10 8 (by decide) (by decide)).2 rfl⟩

/-- C6 counterexample: not every suspension point of the orchestrator and the
two pumps is raced against `changed()` — the Bulk Sender's `send_vectored`
await (src/common.rs line 22) sits in no `tokio::select!`; its loop only polls
the flag synchronously before each batch. -/
theorem suspension_points_not_all_raced :
    ¬ ∀ p ∈ suspensionPoints, p.mechanism = CancelMechanism.race := by
  decide

/-- C6 (amended): only the orchestrator's connect and stream-open suspension
points are raced against `changed()`; the Bulk Sender's and Bulk Receiver's
suspension points instead poll the flag synchronously before every chunk
batch.  Together with the orchestrator's per-iteration checks this still makes
a set flag observed within one loop iteration — the next pump check returns at
once with the bytes so far, and the next orchestrator iteration breaks the
loop — rather than only at process exit. -/
theorem cancellation_observation_amended :
    (∀ p ∈ suspensionPoints,
      (p.mechanism = CancelMechanism.race ↔
        p.name = "client.connect" ∨ p.name = "open_bidirectional_stream")) ∧
    (∀ p ∈ suspensionPoints,
      (p.component = "bulk_sender" ∨ p.component = "bulk_receiver") →
      p.mechanism = CancelMechanism.pollBeforeEachBatch) ∧
    (∀ (requested : Nat) (env : IterEnv) (rest : List IterEnv), env.quitAtOpen = true →
      runIter requested env = some (LoopExit.cancelled, false) ∧
      runLoop requested (env :: rest) = some (LoopExit.cancelled, false)) ∧
    (∀ chunkLen total : Nat,
      send_bytes_on_channel chunkLen (cancelAt 0) total = some (0, [])) ∧
    (∀ reads : List (List Nat × Bool),
      read_all_from_channel (cancelAt 0) 0 0 reads = some 0) := by
  refine ⟨by decide, by decide, ?_, ?_, ?_⟩
  · intro requested env rest h
    have hit : runIter requested env = some (LoopExit.cancelled, false) := by
      simp [runIter, h]
    exact ⟨hit, by simp [runLoop, hit]⟩
  · intro chunkLen total
    have hcan : cancelAt 0 0 = true := by simp [cancelAt]
    simp [send_bytes_on_channel, sendLoopAux, hcan]
  · intro reads
    simpa using readAll_cancelled 0 0 0 reads (Nat.zero_le _) (by simp)

/-- C6 witness: the amended statement at the `send_vectored` point, a
flag-at-open iteration, and both pumps with the flag set before the first
check. -/
theorem cancellation_observation_amended_witness :
    (CancelMechanism.pollBeforeEachBatch = CancelMechanism.race ↔
      "send_vectored" = "client.connect" ∨
      "send_vectored" = "open_bidirectional_stream") ∧
    (runIter 3 ⟨true, false, false, 0⟩ = some (LoopExit.cancelled, false) ∧
      runLoop 3 [⟨true, false, false, 0⟩] = some (LoopExit.cancelled, false)) ∧
    send_bytes_on_channel 1 (cancelAt 0) 9 = some (0, []) ∧
    read_all_from_channel (cancelAt 0) 0 0 [([4], true)] = some 0 :=
  ⟨cancellation_observation_amended.1
      ⟨"send_vectored", "bulk_sender", CancelMechanism.pollBeforeEachBatch⟩ (by decide),
   cancellation_observation_amended.2.2.1 3 ⟨true, false, false, 0⟩ [] rfl,
   cancellation_observation_amended.2.2.2.1 1 9,
   cancellation_observation_amended.2.2.2.2 [([4], true)]⟩

/-- C7: every configuration error — malformed response-size string, malformed
request-size string, response size above the representable maximum, request
size below the 8-byte header overhead — makes `main` return the corresponding
descriptive error message and exit non-zero, independently of any request-loop
script (the loop never starts); an accepted request size S ≥ 8 yields S - 8
payload bytes to send. -/
theorem config_error_handling :
    (∀ (e : String) (q : Except String Nat) (envs : List IterEnv),
      clientMain (Except.error e) q envs
          = Except.error ("Failed to parse response size, error: " ++ e) ∧
      exitStatus (clientMain (Except.error e) q envs) = 1) ∧
    (∀ (r : Nat) (q : Except String Nat) (envs : List IterEnv), U64_MAX < r →
      clientMain (Except.ok r) q envs
          = Except.error
            ("Can't request responses greater than than " ++ byteSizeU64MaxDisplay) ∧
      exitStatus (clientMain (Except.ok r) q envs) = 1) ∧
    (∀ (r : Nat) (e : String) (envs : List IterEnv), r ≤ U64_MAX →
      clientMain (Except.ok r) (Except.error e) envs
          = Except.error ("Failed to parse request size, error: " ++ e) ∧
      exitStatus (clientMain (Except.ok r) (Except.error e) envs) = 1) ∧
    (∀ (r s : Nat) (envs : List IterEnv), r ≤ U64_MAX → s < 8 →
      clientMain (Except.ok r) (Except.ok s) envs
          = Except.error
            "Can't send less than 8 bytes application data per request due to protocol header size!" ∧
      exitStatus (clientMain (Except.ok r) (Except.ok s) envs) = 1) ∧
    (∀ s : Nat, 8 ≤ s → parseRequestSize (Except.ok s) = Except.ok (s - 8)) := by
  refine ⟨?_, ?_, ?_, ?_, ?_⟩
  · intro e q envs
    have h : clientMain (Except.error e) q envs
        = Except.error ("Failed to parse response size, error: " ++ e) := by
      simp [clientMain, parseResponseSize]
    exact ⟨h, by simp [h, exitStatus]⟩
  · intro r q envs hr
    have h : clientMain (Except.ok r) q envs
        = Except.error
          ("Can't request responses greater than than " ++ byteSizeU64MaxDisplay) := by
      simp [clientMain, parseResponseSize, hr]
    exact ⟨h, by simp [h, exitStatus]⟩
  · intro r e envs hr
    have hna : ¬ U64_MAX < r := Nat.not_lt.mpr hr
    have h : clientMain (Except.ok r) (Except.error e) envs
        = Except.error ("Failed to parse request size, error: " ++ e) := by
      simp [clientMain, parseResponseSize, parseRequestSize, hna]
    exact ⟨h, by simp [h, exitStatus]⟩
  · intro r s envs hr hs
    have hna : ¬ U64_MAX < r := Nat.not_lt.mpr hr
    have h : clientMain (Except.ok r) (Except.ok s) envs
        = Except.error
          "Can't send less than 8 bytes application data per request due to protocol header size!" := by
      simp [clientMain, parseResponseSize, parseRequestSize, hna, hs]
    exact ⟨h, by simp [h, exitStatus]⟩
  · intro s hs
    have hns : ¬ s < 8 := Nat.not_lt.mpr hs
    simp [parseRequestSize, hns]

/-- C7 witness: a malformed response size, a too-large response size, a
request size of 3 (below the header overhead), and an accepted request size of
1024 yielding 1016 payload bytes. -/
theorem config_error_handling_witness :
    (clientMain (Except.error "bad size") (Except.ok 8) []
        = Except.error ("Failed to parse response size, error: " ++ "bad size") ∧
      exitStatus (clientMain (Except.error "bad size") (Except.ok 8) []) = 1) ∧
    (clientMain (Except.ok (2 ^ 64)) (Except.ok 8) []
        = Except.error
          ("Can't request responses greater than than " ++ byteSizeU64MaxDisplay) ∧
      exitStatus (clientMain (Except.ok (2 ^ 64)) (Except.ok 8) []) = 1) ∧
    (clientMain (Except.ok 16) (Except.ok 3) []
        = Except.error
          "Can't send less than 8 bytes application data per request due to protocol header size!" ∧
      exitStatus (clientMain (Except.ok 16) (Except.ok 3) []) = 1) ∧
    parseRequestSize (Except.ok 1024) = Except.ok (1024 - 8) :=
  ⟨config_error_handling.1 "bad size" (Except.ok 8) [],
   config_error_handling.2.1 (2 ^ 64) (Except.ok 8) [] (by decide),
   config_error_handling.2.2.2.1 16 3 [] (by decide) (by decide),
   config_error_handling.2.2.2.2 1024 (by decide)⟩

/-- The sink's fold appends exactly one rendered row per handled event. -/
theorem runLogger_lines_aux :
    ∀ (events : List RecoverySample) (st : RecoveryMetricsLogger),
      (events.foldl RecoveryMetricsLogger.onRecoveryMetrics st).lines
        = st.lines ++ events.map (fun s => String.intercalate "," (sampleFields s)) := by
  intro events
  induction events with
  | nil => intro st; simp
  | cons s rest ih =>
    intro st
    simp [List.foldl_cons, ih, RecoveryMetricsLogger.onRecoveryMetrics]

/-- C8: for every recovery-metrics event sequence, the sink's output is
exactly one comma-joined header row followed by one comma-joined data row per
event, each row built from exactly 10 fields in the header's column order. -/
theorem sink_row_format (events : List RecoverySample) :
    (runLogger events).lines
        = (headerFields :: events.map sampleFields).map (String.intercalate ",") ∧
    (runLogger events).lines.length = events.length + 1 ∧
    headerFields.length = 10 ∧
    (∀ s : RecoverySample, (sampleFields s).length = 10) := by
  have h := runLogger_lines_aux events RecoveryMetricsLogger.new
  refine ⟨?_, ?_, rfl, fun s => rfl⟩
  · rw [runLogger, h]
    simp [RecoveryMetricsLogger.new, List.map_map, Function.comp]
  · rw [runLogger, h]
    simp [RecoveryMetricsLogger.new, Nat.add_comm]

/-- C10: if the received count differs from the requested amount but the flag
is already set at validation, the iteration logs nothing and does not break at
the validation step; the loop then exits on the following iteration through a
cancellation check, with no mismatch error logged anywhere. -/
theorem mismatch_suppressed_when_cancelled (a r : Nat) (env' : IterEnv)
    (rest : List IterEnv) (_hr : r ≠ a) (h' : env'.quitAtOpen = true) :
    runIter a ⟨false, false, true, r⟩ = none ∧
    runLoop a (⟨false, false, true, r⟩ :: env' :: rest)
        = some (LoopExit.cancelled, false) := by
  have h1 : runIter a ⟨false, false, true, r⟩ = none := by
    simp [runIter]
  refine ⟨h1, ?_⟩
  have h2 : runIter a env' = some (LoopExit.cancelled, false) := by
    simp [runIter, h']
  simp [runLoop, h1, h2]

/-- C10 witness: requested 1, received 2, flag set at validation, next
iteration's open-boundary check set. -/
theorem mismatch_suppressed_when_cancelled_witness :
    runIter 1 ⟨false, false, true, 2⟩ = none ∧
    runLoop 1 [⟨false, false, true, 2⟩, ⟨true, false, false, 0⟩]
        = some (LoopExit.cancelled, false) :=
  mismatch_suppressed_when_cancelled 1 2 ⟨true, false, false, 0⟩ [] (by decide) rfl

end PerfClient
